import Mathlib

/-!
Verification of the route-construction core of `tourist_ai_bot`.

The Python sources embedded here (shallowly) are:
  * `services/ai_service.py` — candidate filter, diversity selector,
    nearest-neighbor sequencer, budget allocator, route assembler;
  * `services/route_formatter.py` — result normalizer
    (`_ensure_stops_and_summary`);
  * `utils/validators.py` — coordinate-range validator.

Modelling conventions:
  * Python floats are modelled as rationals (`ℚ`) or, where a theorem needs
    the actual haversine formula, as reals (`ℝ`); minute counts are `ℤ`.
  * `random.Random(seed).shuffle` (CPython standard library, external to the
    repository) is modelled as an abstract parameter `shuffle` together with
    the hypothesis that it permutes its input.
  * `_haversine_km` uses floating-point trigonometry; components whose logic
    is independent of the concrete distance values are parameterized by an
    abstract distance function, and `haversineR : ℝ → ℝ → ℝ → ℝ → ℝ` below
    is the faithful real-number reading of the source formula.
  * Python's `s or t` (falsy chaining) and `dict.get` are modelled
    explicitly; a `none` field models an absent key.
-/

/-! ## Python primitives -/

/-- Python `int(x)` on a float/rational: truncation toward zero. -/
def pyInt (q : ℚ) : ℤ := if 0 ≤ q then ⌊q⌋ else ⌈q⌉

/-- Python `round(x)` (banker's rounding, half to even). -/
def pyRound {K : Type} [LinearOrderedField K] [FloorRing K] (q : K) : ℤ :=
  if q - (⌊q⌋ : K) < 1/2 then ⌊q⌋
  else if (1/2 : K) < q - (⌊q⌋ : K) then ⌊q⌋ + 1
  else if ⌊q⌋ % 2 = 0 then ⌊q⌋ else ⌊q⌋ + 1

/-- Python `round(x, 1)`: round to one decimal place, half to even. -/
def round1 {K : Type} [LinearOrderedField K] [FloorRing K] (q : K) : K :=
  (pyRound (q * 10) : ℤ) / 10

/-- Python `a or b` for strings: `b` when `a` is `None` or empty. -/
def pyOrS (a : Option String) (b : String) : String :=
  match a with
  | none => b
  | some s => if s = "" then b else s

/-- Python `str.lower()` restricted to the alphabets the sources use
(ASCII letters and Russian Cyrillic). -/
def pyLowerChar (c : Char) : Char :=
  if 'A' ≤ c ∧ c ≤ 'Z' then Char.ofNat (c.toNat + 32)
  else if 'А' ≤ c ∧ c ≤ 'Я' then Char.ofNat (c.toNat + 32)
  else if c = 'Ё' then 'ё'
  else c

def pyLower (s : List Char) : List Char := s.map pyLowerChar

/-- Python `str.strip()`. -/
def pyStrip (s : List Char) : List Char :=
  ((s.dropWhile Char.isWhitespace).reverse.dropWhile Char.isWhitespace).reverse

/-- `startsWithL s pat`: `s` begins with `pat`. -/
def startsWithL : List Char → List Char → Bool
  | _, [] => true
  | [], _ :: _ => false
  | c :: s, d :: p => c == d && startsWithL s p

/-- `containsL pat s`: Python `pat in s` (substring test). -/
def containsL (pat : List Char) : List Char → Bool
  | [] => pat.isEmpty
  | c :: t => startsWithL (c :: t) pat || containsL pat t

/-- `endsWithL s pat`: Python `s.endswith(pat)`. -/
def endsWithL (s pat : List Char) : Bool := startsWithL s.reverse pat.reverse

/-! ## `utils/validators.py` -/

/-- `is_valid_lat_lon` from `utils/validators.py` (numeric inputs). -/
def is_valid_lat_lon (lat lon : ℚ) : Bool :=
  decide (-90 ≤ lat ∧ lat ≤ 90 ∧ -180 ≤ lon ∧ lon ≤ 180)

/-! ## `services/ai_service.py`: data and leaf functions -/

/-- A candidate POI dictionary; `none` marks an absent key. -/
structure Poi where
  name : Option String := none
  title : Option String := none
  label : Option String := none
  description : Option String := none
  addr : Option String := none
  address : Option String := none
  city : Option String := none
  lat : Option ℚ := none
  lon : Option ℚ := none
deriving DecidableEq

/-- `_looks_generic_name` from `ai_service.py`. -/
def _looks_generic_name (name : String) : Bool :=
  let n := pyLower (pyStrip name.toList)
  if n.isEmpty || n == "russia".toList || n == "россия".toList then true
  else if endsWithL n " russia".toList || endsWithL n " россия".toList then true
  else if n == "nizhny novgorod".toList || n == "нижний новгород".toList then true
  else if containsL ", russia".toList n || containsL "нижегородская область".toList n then true
  else false

/-- The display-name resolution `p.get("name") or p.get("title") or
p.get("label") or ""` used by `_filter_generic_pois`. -/
def resolvedName (p : Poi) : String :=
  pyOrS p.name (pyOrS p.title (pyOrS p.label ""))

/-- `_filter_generic_pois` from `ai_service.py`: drop generic-labelled POIs,
but fall back to the original list when everything would be dropped. -/
def _filter_generic_pois (pois : List Poi) : List Poi :=
  let cleaned := pois.filter (fun p => !_looks_generic_name (resolvedName p))
  if cleaned.isEmpty then pois else cleaned

/-- `_pick_pois_with_seed` from `ai_service.py`.  The CPython
`random.Random(seed).shuffle` is the abstract parameter `shuffle`; the
function copies the list, shuffles the copy and takes the head. -/
def _pick_pois_with_seed (shuffle : ℕ → List Poi → List Poi)
    (pois : List Poi) (seed : ℕ) (max_stops : ℕ) : List Poi :=
  (shuffle seed pois).take max_stops

/-- `max_stops = max(3, min(12, 2 + int(time_hours * 2)))`
(`generate_route`, `ai_service.py` line 242). -/
def maxStopsOf (time_hours : ℚ) : ℤ :=
  max 3 (min 12 (2 + pyInt (time_hours * 2)))

/-- The stop-count formula as the spec words it (with `round` in place of
the code's `int` truncation); used to compare spec against code. -/
def specMaxStops (time_hours : ℚ) : ℤ :=
  max 3 (min 12 (2 + round (time_hours * 2)))

/-- `_norm_transport` from `ai_service.py`. -/
def _norm_transport (t : String) : String :=
  let t1 := if t = "" then "walk" else t
  let n := pyLower t1.toList
  if containsL "car".toList n || containsL "авто".toList n || containsL "маш".toList n then
    "car"
  else if containsL "bike".toList n || containsL "вел".toList n || containsL "самокат".toList n then
    "bike"
  else if containsL "transit".toList n || containsL "обще".toList n ||
      containsL "bus".toList n || containsL "метро".toList n then
    "transit"
  else "walk"

/-- `_SPEEDS_KMH` from `ai_service.py` (`.get(transport, 4.5)`). -/
def speedsAi (t : String) : ℚ :=
  if t = "walk" then 9/2
  else if t = "bike" then 14
  else if t = "scooter" then 18
  else if t = "car" then 40
  else if t = "transit" then 25
  else 9/2

/-! ## Lemmas on leaf components -/

theorem norm_transport_mem (t : String) :
    _norm_transport t = "walk" ∨ _norm_transport t = "bike" ∨
    _norm_transport t = "car" ∨ _norm_transport t = "transit" := by
  unfold _norm_transport
  dsimp only
  repeat' split
  all_goals simp

/-- C7: generic-label filtering never empties the candidate set: for every
non-empty input list of POIs, `_filter_generic_pois` returns a non-empty
list (if removing all generic-labelled POIs would leave nothing, the
original list is returned unchanged). -/
theorem C7_filter_generic_nonempty (pois : List Poi) (h : pois ≠ []) :
    _filter_generic_pois pois ≠ [] := by
  unfold _filter_generic_pois
  dsimp only
  split
  · exact h
  · next hne =>
    intro hnil
    exact hne (by simp [hnil])

/-- A POI whose display name is the generic label "Россия". -/
def genPoi : Poi := { name := some "Россия" }

theorem C7_filter_generic_nonempty_witness :
    ([genPoi] : List Poi) ≠ [] ∧ _filter_generic_pois [genPoi] ≠ [] :=
  ⟨by decide, C7_filter_generic_nonempty [genPoi] (by decide)⟩

/-! ## Nearest-neighbor sequencer (`_nn_order`) -/

/-- First index of a minimal `f`-value, as computed by Python's
`min(range(len(l)), key=...)` (ties resolved to the earliest index). -/
def argminIdx (f : ℚ × ℚ → ℚ) : List (ℚ × ℚ) → ℕ
  | [] => 0
  | [_] => 0
  | x :: y :: u =>
      if f ((y :: u).getD (argminIdx f (y :: u)) (0, 0)) < f x
      then argminIdx f (y :: u) + 1 else 0

theorem argminIdx_lt_length (f : ℚ × ℚ → ℚ) :
    ∀ l : List (ℚ × ℚ), l ≠ [] → argminIdx f l < l.length := by
  intro l
  induction l with
  | nil => intro h; exact absurd rfl h
  | cons x t ih =>
    intro _
    cases t with
    | nil => simp [argminIdx]
    | cons y u =>
      rw [argminIdx]
      split
      · have := ih (by simp)
        simp only [List.length_cons] at this ⊢
        omega
      · simp

theorem argminIdx_min (f : ℚ × ℚ → ℚ) :
    ∀ l : List (ℚ × ℚ), ∀ k, k < l.length →
      f (l.getD (argminIdx f l) (0, 0)) ≤ f (l.getD k (0, 0)) := by
  intro l
  induction l with
  | nil => intro k hk; simp at hk
  | cons x t ih =>
    intro k hk
    cases t with
    | nil =>
      have hk0 : k = 0 := by
        simp only [List.length_cons, List.length_nil] at hk
        omega
      subst hk0
      simp [argminIdx]
    | cons y u =>
      rw [argminIdx]
      split
      · next hlt =>
        cases k with
        | zero =>
          simp only [List.getD_cons_succ, List.getD_cons_zero]
          exact le_of_lt hlt
        | succ k =>
          have hk2 : k < (y :: u).length := by
            simp only [List.length_cons] at hk ⊢
            omega
          simp only [List.getD_cons_succ]
          exact ih k hk2
      · next hge =>
        push_neg at hge
        cases k with
        | zero =>
          simp only [List.getD_cons_zero]
          exact le_rfl
        | succ k =>
          have hk2 : k < (y :: u).length := by
            simp only [List.length_cons] at hk ⊢
            omega
          simp only [List.getD_cons_succ, List.getD_cons_zero]
          exact le_trans hge (ih k hk2)

theorem argminIdx_first (f : ℚ × ℚ → ℚ) :
    ∀ l : List (ℚ × ℚ), ∀ k, k < argminIdx f l →
      f (l.getD (argminIdx f l) (0, 0)) < f (l.getD k (0, 0)) := by
  intro l
  induction l with
  | nil => intro k hk; simp [argminIdx] at hk
  | cons x t ih =>
    intro k hk
    cases t with
    | nil => simp [argminIdx] at hk
    | cons y u =>
      rw [argminIdx] at hk ⊢
      split at hk
      · next hlt =>
        rw [if_pos hlt]
        cases k with
        | zero =>
          simp only [List.getD_cons_succ, List.getD_cons_zero]
          exact hlt
        | succ k =>
          simp only [List.getD_cons_succ]
          exact ih k (by omega)
      · next hge => omega

/-- `_nn_order` from `ai_service.py`, parameterized by the distance
function `d` (the source calls `_haversine_km`, floating-point trigonometry;
the ordering logic is independent of the concrete distance values). -/
def _nn_order (d : ℚ × ℚ → ℚ × ℚ → ℚ) (start : ℚ × ℚ) (pts : List (ℚ × ℚ)) :
    List (ℚ × ℚ) :=
  if h : pts = [] then []
  else
    let j := argminIdx (d start) pts
    let nxt := pts.getD j (0, 0)
    nxt :: _nn_order d nxt (pts.eraseIdx j)
termination_by pts.length
decreasing_by
  have hj : argminIdx (d start) pts < pts.length := argminIdx_lt_length _ _ h
  have hpos : 0 < pts.length := List.length_pos.mpr h
  simp [List.length_eraseIdx, hj]
  omega

/-- The greedy nearest-neighbor specification: `NNGreedy d cur remaining out`
holds when `out` visits all of `remaining`, at each step choosing a point of
minimal `d`-distance to the current position, ties resolved to the earliest
point in input order. -/
def NNGreedy (d : ℚ × ℚ → ℚ × ℚ → ℚ) :
    (ℚ × ℚ) → List (ℚ × ℚ) → List (ℚ × ℚ) → Prop
  | _, remaining, [] => remaining = []
  | cur, remaining, x :: out =>
      ∃ j, j < remaining.length ∧ remaining.getD j (0, 0) = x ∧
        (∀ k, k < remaining.length → d cur x ≤ d cur (remaining.getD k (0, 0))) ∧
        (∀ k, k < j → d cur x < d cur (remaining.getD k (0, 0))) ∧
        NNGreedy d x (remaining.eraseIdx j) out

theorem perm_getD_cons_eraseIdx :
    ∀ (l : List (ℚ × ℚ)) (j : ℕ), j < l.length →
      l.Perm (l.getD j (0, 0) :: l.eraseIdx j) := by
  intro l
  induction l with
  | nil => intro j hj; simp at hj
  | cons x t ih =>
    intro j hj
    cases j with
    | zero => simp
    | succ k =>
      have hk : k < t.length := by simpa using hj
      have h1 := ih k hk
      have h2 : (x :: t).Perm (x :: (t.getD k (0, 0) :: t.eraseIdx k)) := h1.cons x
      have h3 := h2.trans (List.Perm.swap _ _ _)
      simpa using h3

/-- C4: nearest-neighbor sequencing.  For every start coordinate, every
finite list of points, and every distance function `d` (in the source,
`_haversine_km`), `_nn_order` returns a permutation of its input (no point
lost or duplicated), and at each step the appended point is one of minimum
`d`-distance to the current position among the remaining points, ties broken
in favor of the first such point in input order (`NNGreedy`). -/
theorem C4_nn_order_perm_and_greedy (d : ℚ × ℚ → ℚ × ℚ → ℚ)
    (start : ℚ × ℚ) (pts : List (ℚ × ℚ)) :
    (_nn_order d start pts).Perm pts ∧
    NNGreedy d start pts (_nn_order d start pts) := by
  suffices h : ∀ n (cur : ℚ × ℚ) (l : List (ℚ × ℚ)), l.length = n →
      (_nn_order d cur l).Perm l ∧ NNGreedy d cur l (_nn_order d cur l) from
    h pts.length start pts rfl
  intro n
  induction n using Nat.strong_induction_on with
  | _ n ih =>
    intro cur l hlen
    by_cases hnil : l = []
    · subst hnil
      rw [_nn_order]
      simp [NNGreedy]
    · rw [_nn_order, dif_neg hnil]
      have hj : argminIdx (d cur) l < l.length := argminIdx_lt_length _ _ hnil
      have hperm := perm_getD_cons_eraseIdx l (argminIdx (d cur) l) hj
      have hlt : (l.eraseIdx (argminIdx (d cur) l)).length < n := by
        rw [← hlen]
        rw [List.length_eraseIdx]
        simp only [hj, if_pos]
        omega
      obtain ⟨ihp, ihg⟩ :=
        ih _ hlt (l.getD (argminIdx (d cur) l) (0, 0))
          (l.eraseIdx (argminIdx (d cur) l)) rfl
      constructor
      · exact (ihp.cons _).trans hperm.symm
      · rw [NNGreedy]
        exact ⟨argminIdx (d cur) l, hj, rfl,
          fun k hk => argminIdx_min (d cur) l k hk,
          fun k hk => argminIdx_first (d cur) l k hk, ihg⟩

/-! ## Claims C5 and C6 -/

/-- C5: diversity selection.  For every candidate list, seed and
`max_stops ≤ len(pois)`, and for every shuffle procedure that permutes its
input (the hypothesis satisfied by CPython's `random.Random(seed).shuffle`),
`_pick_pois_with_seed` returns exactly `max_stops` elements, all drawn from
the input (a prefix of a permutation of the input).  The function is pure in
this model: the same `(seed, input)` pair always yields the same output, and
the input list is copied (`pois[:]`), never mutated. -/
theorem C5_pick_prefix_of_permutation (shuffle : ℕ → List Poi → List Poi)
    (hs : ∀ s l, (shuffle s l).Perm l)
    (pois : List Poi) (seed : ℕ) (max_stops : ℕ) (hk : max_stops ≤ pois.length) :
    (_pick_pois_with_seed shuffle pois seed max_stops).length = max_stops ∧
    (∀ x ∈ _pick_pois_with_seed shuffle pois seed max_stops, x ∈ pois) ∧
    (∃ perm : List Poi, perm.Perm pois ∧
      _pick_pois_with_seed shuffle pois seed max_stops = perm.take max_stops) := by
  refine ⟨?_, ?_, ⟨shuffle seed pois, hs seed pois, rfl⟩⟩
  · rw [_pick_pois_with_seed, List.length_take, (hs seed pois).length_eq]
    omega
  · intro x hx
    exact (hs seed pois).mem_iff.mp (List.mem_of_mem_take hx)

/-- Sample candidate list used by concrete witnesses. -/
def samplePois : List Poi :=
  [{ name := some "Кремль", lat := some 56, lon := some 44 },
   { name := some "Музей", lat := some 57, lon := some 45 }]

/-- The identity shuffle: a concrete procedure satisfying the permutation
hypothesis, used to instantiate witnesses. -/
def idShuffle : ℕ → List Poi → List Poi := fun _ l => l

theorem C5_pick_prefix_of_permutation_witness :
    2 ≤ samplePois.length ∧
    ((_pick_pois_with_seed idShuffle samplePois 7 2).length = 2 ∧
     (∀ x ∈ _pick_pois_with_seed idShuffle samplePois 7 2, x ∈ samplePois) ∧
     (∃ perm : List Poi, perm.Perm samplePois ∧
       _pick_pois_with_seed idShuffle samplePois 7 2 = perm.take 2)) :=
  ⟨by decide,
   C5_pick_prefix_of_permutation idShuffle (fun _ _ => List.Perm.refl _)
     samplePois 7 2 (by decide)⟩

/-- C6 counterexample: the claim says the stop bound is
`clamp(2 + round(time_hours * 2), 3, 12)`, but the code computes
`max(3, min(12, 2 + int(time_hours * 2)))`, truncating instead of rounding.
At `time_hours = 1.4` the code yields 4 while the claimed formula yields 5. -/
theorem C6_stop_count_counterexample :
    maxStopsOf (7/5) = 4 ∧ specMaxStops (7/5) = 5 ∧
    maxStopsOf (7/5) ≠ specMaxStops (7/5) := by
  have h1 : pyInt ((7:ℚ)/5 * 2) = 2 := by
    rw [pyInt, if_pos (by norm_num)]
    norm_num
  have h2 : round ((7:ℚ)/5 * 2) = 3 := by
    rw [round_eq]
    norm_num
  refine ⟨?_, ?_, ?_⟩
  · rw [maxStopsOf, h1]; norm_num
  · rw [specMaxStops, h2]; norm_num
  · rw [maxStopsOf, specMaxStops, h1, h2]; norm_num

/-- C6 amended: the maximum number of stops selected by `generate_route` is
`max(3, min(12, 2 + int(time_hours * 2)))` — at least 3, at most 12, and
equal to `2 + int(time_hours * 2)` (truncation, not rounding) whenever that
value lies between 3 and 12. -/
theorem C6_stop_count_amended (time_hours : ℚ) :
    3 ≤ maxStopsOf time_hours ∧ maxStopsOf time_hours ≤ 12 ∧
    (3 ≤ 2 + pyInt (time_hours * 2) → 2 + pyInt (time_hours * 2) ≤ 12 →
      maxStopsOf time_hours = 2 + pyInt (time_hours * 2)) := by
  unfold maxStopsOf
  refine ⟨le_max_left _ _, max_le (by norm_num) (min_le_left _ _), ?_⟩
  intro h1 h2
  rw [min_eq_right h2, max_eq_right h1]

theorem C6_stop_count_amended_witness :
    3 ≤ maxStopsOf 2 ∧ maxStopsOf 2 ≤ 12 ∧ maxStopsOf 2 = 2 + pyInt (2 * 2) := by
  have hp : pyInt ((2:ℚ) * 2) = 4 := by
    rw [pyInt, if_pos (by norm_num)]
    norm_num
  have h := C6_stop_count_amended 2
  exact ⟨h.1, h.2.1, h.2.2 (by rw [hp]; norm_num) (by rw [hp]; norm_num)⟩

/-! ## Budget allocator (`_build_stops_and_summary` lines 148-158) -/

/-- The dwell-time allocation of `_build_stops_and_summary`: given the
ordered stops' computed `leg_min` values and the requested total, return the
`stay_min` assigned to each stop in route order.  Mirrors
`planned = max(1, int(target_minutes))`, `extra = max(0, planned - eta_now)`,
`per_stop = extra // len(stops)`, `rem = extra % len(stops)`,
`stay = base_stay + per_stop + (1 if idx < rem else 0)`. -/
def allocateStays (legs : List ℤ) (target_minutes : ℤ) : List ℤ :=
  let planned := max 1 target_minutes
  let base_stay : ℤ := 10
  let base_total := base_stay * (legs.length : ℤ)
  let travel_min := legs.sum
  let eta_now := travel_min + base_total
  let extra := max 0 (planned - eta_now)
  let per_stop := if legs.length = 0 then 0 else extra / (legs.length : ℤ)
  let rem := if legs.length = 0 then 0 else extra % (legs.length : ℤ)
  (List.range legs.length).map
    (fun (idx : ℕ) => base_stay + per_stop + (if (idx : ℤ) < rem then 1 else 0))

/-- `extra` as the claim words it:
`max(0, target_minutes - (sum(leg_min) + base_dwell * stop_count))`. -/
def claimExtra (legs : List ℤ) (target : ℤ) : ℤ :=
  max 0 (target - (legs.sum + 10 * (legs.length : ℤ)))

def claimPerStop (legs : List ℤ) (target : ℤ) : ℤ :=
  claimExtra legs target / (legs.length : ℤ)

def claimRem (legs : List ℤ) (target : ℤ) : ℤ :=
  claimExtra legs target % (legs.length : ℤ)

theorem sum_range_stays (per rem : ℤ) (h0 : 0 ≤ rem) : ∀ m : ℕ,
    ((List.range m).map
      (fun (idx : ℕ) => 10 + per + if (idx : ℤ) < rem then (1:ℤ) else 0)).sum
      = (10 + per) * m + min rem m := by
  intro m
  induction m with
  | zero =>
    simp [min_eq_right h0]
  | succ m ih =>
    rw [List.range_succ, List.map_append, List.sum_append, ih]
    simp only [List.map_cons, List.map_nil, List.sum_cons, List.sum_nil]
    have : ((m : ℤ)) + 1 = ((m + 1 : ℕ) : ℤ) := by push_cast; ring
    rcases lt_or_le (m : ℤ) rem with h | h
    · rw [if_pos h, min_eq_right (by omega), min_eq_right (by push_cast; omega)]
      push_cast
      ring
    · rw [if_neg (by omega), min_eq_left h, min_eq_left (by push_cast; omega)]
      push_cast
      ring

/-- C1: budget allocation.  For every non-empty leg list (travel times, hence
non-negative) and every `target_minutes`, with `base_dwell = 10`,
`extra = max(0, target - (sum(leg_min) + 10 * n))`, `per_stop = extra // n`
and `rem = extra % n`: stop `i` receives
`stay_min = 10 + per_stop + (1 if i < rem else 0)`; the stays sum to
`10 * n + extra` exactly; any two stays differ by at most 1; no stay is
negative; and when `target_minutes` is at most the pure travel time every
stay equals the base dwell 10. -/
theorem C1_budget_allocation (legs : List ℤ) (target : ℤ)
    (hne : legs ≠ []) (hnn : ∀ l ∈ legs, 0 ≤ l) :
    (∀ i : ℕ, i < legs.length →
      (allocateStays legs target).getD i 0 =
        10 + claimPerStop legs target +
          (if (i : ℤ) < claimRem legs target then 1 else 0)) ∧
    (allocateStays legs target).sum
        = 10 * (legs.length : ℤ) + claimExtra legs target ∧
    (∀ i j : ℕ, i < legs.length → j < legs.length →
      |(allocateStays legs target).getD i 0 -
        (allocateStays legs target).getD j 0| ≤ 1) ∧
    (∀ i : ℕ, i < legs.length → 0 ≤ (allocateStays legs target).getD i 0) ∧
    (target ≤ legs.sum → ∀ i : ℕ, i < legs.length →
      (allocateStays legs target).getD i 0 = 10) := by
  have hn : 0 < legs.length := List.length_pos.mpr hne
  have hnZ : (0:ℤ) < (legs.length : ℤ) := by exact_mod_cast hn
  have hsum : 0 ≤ legs.sum := List.sum_nonneg hnn
  have hextra : max 0 (max 1 target - (legs.sum + 10 * (legs.length : ℤ)))
      = claimExtra legs target := by
    unfold claimExtra
    rcases le_or_lt 1 target with h1 | h1
    · rw [max_eq_right h1]
    · rw [max_eq_left h1.le, max_eq_left (by omega), max_eq_left (by omega)]
  have hper0 : 0 ≤ claimPerStop legs target := by
    unfold claimPerStop
    exact Int.ediv_nonneg (le_max_left _ _) hnZ.le
  have hrem0 : 0 ≤ claimRem legs target := by
    unfold claimRem
    exact Int.emod_nonneg _ hnZ.ne'
  have hremlt : claimRem legs target < (legs.length : ℤ) := by
    unfold claimRem
    exact Int.emod_lt_of_pos _ hnZ
  have hgetD : ∀ i : ℕ, i < legs.length →
      (allocateStays legs target).getD i 0 =
        10 + claimPerStop legs target +
          (if (i : ℤ) < claimRem legs target then 1 else 0) := by
    intro i hi
    simp only [allocateStays, hn.ne', if_false]
    rw [List.getD_eq_getElem?_getD, List.getElem?_map, List.getElem?_range hi]
    simp only [Option.map_some', Option.getD_some]
    rw [claimPerStop, claimRem, ← hextra]
  refine ⟨hgetD, ?_, ?_, ?_, ?_⟩
  · simp only [allocateStays, hn.ne', if_false, hextra]
    rw [sum_range_stays (claimExtra legs target / (legs.length : ℤ))
      (claimExtra legs target % (legs.length : ℤ)) (Int.emod_nonneg _ hnZ.ne'),
      min_eq_left (le_of_lt (Int.emod_lt_of_pos _ hnZ))]
    have hdm := Int.ediv_add_emod (claimExtra legs target) (legs.length : ℤ)
    linear_combination hdm
  · intro i j hi hj
    rw [hgetD i hi, hgetD j hj, abs_sub_le_iff]
    split_ifs <;> constructor <;> omega
  · intro i hi
    rw [hgetD i hi]
    split_ifs <;> omega
  · intro ht i hi
    have he0 : claimExtra legs target = 0 := by
      unfold claimExtra
      rw [max_eq_left (by omega)]
    rw [hgetD i hi, claimPerStop, claimRem, he0, Int.zero_ediv, Int.zero_emod,
      if_neg (by omega)]
    norm_num

theorem C1_budget_allocation_witness :
    (([5, 7] : List ℤ) ≠ [] ∧ (∀ l ∈ ([5, 7] : List ℤ), 0 ≤ l)) ∧
    allocateStays [5, 7] 60 = [24, 24] ∧
    (allocateStays [5, 7] 60).sum
      = 10 * (([5, 7] : List ℤ).length : ℤ) + claimExtra [5, 7] 60 :=
  ⟨⟨by decide, by decide⟩, by decide,
   (C1_budget_allocation [5, 7] 60 (by decide) (by decide)).2.1⟩

/-! ## `_build_stops_and_summary` and `generate_route` -/

/-- A stop of the assembled route. -/
structure StopOut where
  name : String
  description : String
  lat : ℚ
  lon : ℚ
  leg_min : ℤ
  stay_min : ℤ
deriving DecidableEq

/-- The assembled route summary. -/
structure SummaryOut where
  transport : String
  start_lat : ℚ
  start_lon : ℚ
  start_label : String
  total_km : ℚ
  eta_min : ℤ
deriving DecidableEq

/-- The assembled route with its `meta` source tag. -/
structure RouteOut where
  stops : List StopOut
  summary : SummaryOut
  source : String
  reason : Option String := none
deriving DecidableEq

/-- The `by_xy` dictionary lookup: Python dict comprehensions keep the last
entry for a duplicated key, and `by_xy.get(xy, {})` yields an empty dict on a
miss (modelled by the all-`none` `Poi`). -/
def byXYlookup (pois : List Poi) (xy : ℚ × ℚ) : Poi :=
  ((pois.filter
      (fun p => decide (p.lat = some xy.1 ∧ p.lon = some xy.2))).getLast?).getD {}

/-- The stop-construction loop of `_build_stops_and_summary`
(lines 128-146): walks the ordered coordinates, resolving names and
descriptions from `by_xy`, computing `leg_min` from the distance and the
speed, and accumulating `total_km` and `travel_min`. -/
def buildLoop (hav : ℚ → ℚ → ℚ → ℚ → ℚ) (speed : ℚ) (picked : List Poi) :
    ℚ × ℚ → ℕ → List (ℚ × ℚ) → List StopOut × ℚ × ℤ
  | _, _, [] => ([], 0, 0)
  | prev, i, xy :: rest =>
      let p := byXYlookup picked xy
      let name := pyOrS p.name (pyOrS p.title (pyOrS p.label ("Точка " ++ toString i)))
      let desc := pyOrS p.description (pyOrS p.addr (pyOrS p.address (pyOrS p.city "")))
      let dist := hav prev.1 prev.2 xy.1 xy.2
      let leg := pyRound (dist / max speed (1/10) * 60)
      let r := buildLoop hav speed picked xy (i + 1) rest
      ({ name := name, description := desc, lat := xy.1, lon := xy.2,
         leg_min := leg, stay_min := 0 } :: r.1, dist + r.2.1, leg + r.2.2)

/-- `_build_stops_and_summary` from `ai_service.py`, parameterized by the
distance function `hav` standing for the floating-point `_haversine_km`. -/
def _build_stops_and_summary (hav : ℚ → ℚ → ℚ → ℚ → ℚ) (start_label : String)
    (start_lat start_lon : ℚ) (transport : String) (picked_pois : List Poi)
    (target_minutes : ℤ) : RouteOut :=
  let speed := speedsAi transport
  let start_xy := (start_lat, start_lon)
  let pts_xy := picked_pois.filterMap (fun p =>
    match p.lat, p.lon with
    | some la, some lo => some (la, lo)
    | _, _ => none)
  let ordered_xy := _nn_order (fun a b => hav a.1 a.2 b.1 b.2) start_xy pts_xy
  let r := buildLoop hav speed picked_pois start_xy 1 ordered_xy
  let stays := allocateStays (r.1.map (·.leg_min)) target_minutes
  let stops := List.zipWith (fun s st => { s with stay_min := st }) r.1 stays
  { stops := stops,
    summary := { transport := transport, start_lat := start_lat,
                 start_lon := start_lon,
                 start_label := pyOrS (some start_label) "Старт",
                 total_km := round1 r.2.1, eta_min := r.2.2 + stays.sum },
    source := "" }

/-- A step returned by the external optimizer (`ionet_result["steps"]`). -/
structure IStep where
  lat : ℚ
  lon : ℚ
  name : Option String := none
  description : Option String := none
deriving DecidableEq

/-- Conversion of optimizer steps to stop dictionaries
(`generate_route` lines 269-289): re-attach name/description from the picked
subset by coordinate match and drop steps with generic names. -/
def ionetSteps (picked : List Poi) : ℕ → List IStep → List Poi
  | _, [] => []
  | i, s :: rest =>
      let base := byXYlookup picked (s.lat, s.lon)
      let name := pyOrS s.name (pyOrS base.name (pyOrS base.title ("Точка " ++ toString i)))
      let desc := pyOrS s.description (pyOrS base.description (pyOrS base.addr ""))
      if _looks_generic_name name then ionetSteps picked (i + 1) rest
      else { name := some name, description := some desc,
             lat := some s.lat, lon := some s.lon } :: ionetSteps picked (i + 1) rest

/-- `generate_route` from `ai_service.py` as a pure decision structure.
Parameters model the effectful collaborators: `pois` is the provider result
(the code turns provider exceptions into `[]`); `ionet` is the optimizer
outcome (`none` models timeout/error/missing `steps`); `shuffle` models
`random.Random(seed).shuffle`; `enrich` models `poi_enricher.enrich_stops`
(the code swallows its errors, and it only rewrites descriptions);
`interests_hash` models `hash(interests) & 0x7FFFFFFF`. -/
def generate_route (hav : ℚ → ℚ → ℚ → ℚ → ℚ)
    (shuffle : ℕ → List Poi → List Poi) (enrich : List StopOut → List StopOut)
    (pois : List Poi) (ionet : Option (List IStep))
    (lat lon : ℚ) (interests_hash : ℕ) (time_hours : ℚ) (transport : String)
    (location : Option String) (diversity_seed : Option ℕ) : RouteOut :=
  let tmode := _norm_transport transport
  let total_minutes := pyInt (time_hours * 60)
  if pois = [] then
    { stops := [{ name := pyOrS location "Стартовая точка",
                  description := "Прогулка рядом с точкой старта.",
                  lat := lat, lon := lon, leg_min := 0,
                  stay_min := max 1 (total_minutes - 0) }],
      summary := { transport := tmode, start_lat := lat, start_lon := lon,
                   start_label := pyOrS location "Старт",
                   total_km := 0, eta_min := total_minutes },
      source := "fallback", reason := some "No POI" }
  else
    let pois1 := _filter_generic_pois pois
    let seed := Nat.xor (diversity_seed.getD 0) (Nat.land interests_hash 0x7FFFFFFF)
    let max_stops := maxStopsOf time_hours
    let picked := _pick_pois_with_seed shuffle pois1 seed max_stops.toNat
    match ionet with
    | some (st :: sts) =>
        let enriched_steps := ionetSteps picked 1 (st :: sts)
        let result := _build_stops_and_summary hav (pyOrS location "Старт")
          lat lon tmode enriched_steps total_minutes
        { result with source := "ionet", stops := enrich result.stops }
    | _ =>
        let result := _build_stops_and_summary hav (pyOrS location "Старт")
          lat lon tmode picked total_minutes
        { result with
            source := "fallback"
            reason := some "Ionet empty/400/429"
            stops := enrich result.stops }

/-! ## Lemmas about the assembler -/

theorem buildLoop_length (hav : ℚ → ℚ → ℚ → ℚ → ℚ) (speed : ℚ) (picked : List Poi) :
    ∀ (xys : List (ℚ × ℚ)) (prev : ℚ × ℚ) (i : ℕ),
      ((buildLoop hav speed picked prev i xys).1).length = xys.length := by
  intro xys
  induction xys with
  | nil => intro prev i; rfl
  | cons xy rest ih =>
    intro prev i
    simp only [buildLoop, List.length_cons]
    rw [ih]

theorem buildLoop_travel (hav : ℚ → ℚ → ℚ → ℚ → ℚ) (speed : ℚ) (picked : List Poi) :
    ∀ (xys : List (ℚ × ℚ)) (prev : ℚ × ℚ) (i : ℕ),
      (buildLoop hav speed picked prev i xys).2.2 =
        ((buildLoop hav speed picked prev i xys).1.map (·.leg_min)).sum := by
  intro xys
  induction xys with
  | nil => intro prev i; rfl
  | cons xy rest ih =>
    intro prev i
    simp only [buildLoop, List.map_cons, List.sum_cons]
    rw [ih]

theorem zipWith_stay_sum :
    ∀ (ss : List StopOut) (ts : List ℤ), ss.length = ts.length →
      ((List.zipWith (fun s st => { s with stay_min := st }) ss ts).map
        (fun s => s.leg_min + s.stay_min)).sum
        = (ss.map (·.leg_min)).sum + ts.sum := by
  intro ss
  induction ss with
  | nil =>
    intro ts h
    have : ts = [] := by
      cases ts
      · rfl
      · simp at h
    subst this
    simp
  | cons s ss ih =>
    intro ts h
    cases ts with
    | nil => simp at h
    | cons t ts =>
      simp only [List.zipWith_cons_cons, List.map_cons, List.sum_cons,
        ih ts (by simpa using h)]
      ring

theorem allocateStays_length (legs : List ℤ) (target : ℤ) :
    (allocateStays legs target).length = legs.length := by
  simp [allocateStays]

/-- The sum-of-minutes identity for `_build_stops_and_summary`: the produced
`eta_min` is exactly the sum of `leg_min + stay_min` over the produced stops,
for every distance function, input and target. -/
theorem build_eta_eq (hav : ℚ → ℚ → ℚ → ℚ → ℚ) (sl : String) (slat slon : ℚ)
    (tr : String) (picked : List Poi) (target : ℤ) :
    (_build_stops_and_summary hav sl slat slon tr picked target).summary.eta_min =
      ((_build_stops_and_summary hav sl slat slon tr picked target).stops.map
        (fun s => s.leg_min + s.stay_min)).sum := by
  simp only [_build_stops_and_summary]
  rw [zipWith_stay_sum _ _ (by rw [allocateStays_length, List.length_map]),
    buildLoop_travel]

theorem nn_order_nil (d : ℚ × ℚ → ℚ × ℚ → ℚ) (start : ℚ × ℚ) :
    _nn_order d start [] = [] := by
  rw [_nn_order]
  simp

theorem nn_order_singleton (d : ℚ × ℚ → ℚ × ℚ → ℚ) (start x : ℚ × ℚ) :
    _nn_order d start [x] = [x] := by
  rw [_nn_order, dif_neg (by simp)]
  simp [argminIdx, nn_order_nil]

theorem generate_route_transport (hav : ℚ → ℚ → ℚ → ℚ → ℚ)
    (shuffle : ℕ → List Poi → List Poi) (enrich : List StopOut → List StopOut)
    (pois : List Poi) (ionet : Option (List IStep)) (lat lon : ℚ)
    (interests_hash : ℕ) (time_hours : ℚ) (transport : String)
    (location : Option String) (dseed : Option ℕ) :
    (generate_route hav shuffle enrich pois ionet lat lon interests_hash
        time_hours transport location dseed).summary.transport
      = _norm_transport transport := by
  simp only [generate_route]
  split
  · rfl
  · split
    · simp [_build_stops_and_summary]
    · simp [_build_stops_and_summary]

/-! ## Claims C3, C9, C10 -/

/-- C3: degraded route on zero candidates.  When the provider returns no
POIs (or raised, which the code converts to `[]`), `generate_route` returns
the single-stop route: one stop at the origin with `leg_min = 0` and
`stay_min = total_minutes`, and a summary with `total_km = 0` and
`eta_min = total_minutes`.  The hypothesis `1 ≤ total_minutes` holds for
every validated request (the handlers enforce `0.5 ≤ time_hours ≤ 8`, so
`total_minutes ≥ 30`); the code computes `stay_min = max(1, total_minutes)`. -/
theorem C3_degraded_route (hav : ℚ → ℚ → ℚ → ℚ → ℚ)
    (shuffle : ℕ → List Poi → List Poi) (enrich : List StopOut → List StopOut)
    (ionet : Option (List IStep)) (lat lon : ℚ) (interests_hash : ℕ)
    (time_hours : ℚ) (transport : String) (location : Option String)
    (dseed : Option ℕ) (hmin : 1 ≤ pyInt (time_hours * 60)) :
    generate_route hav shuffle enrich [] ionet lat lon interests_hash
        time_hours transport location dseed =
      { stops := [{ name := pyOrS location "Стартовая точка",
                    description := "Прогулка рядом с точкой старта.",
                    lat := lat, lon := lon, leg_min := 0,
                    stay_min := pyInt (time_hours * 60) }],
        summary := { transport := _norm_transport transport, start_lat := lat,
                     start_lon := lon, start_label := pyOrS location "Старт",
                     total_km := 0, eta_min := pyInt (time_hours * 60) },
        source := "fallback", reason := some "No POI" } := by
  have hmax : max 1 (pyInt (time_hours * 60) - 0) = pyInt (time_hours * 60) := by
    rw [sub_zero]
    exact max_eq_right hmin
  simp [generate_route, hmax]
  exact hmin

/-- A concrete distance function used only to instantiate witnesses. -/
def qTestDist : ℚ → ℚ → ℚ → ℚ → ℚ := fun aLat aLon bLat bLon =>
  |bLat - aLat| + |bLon - aLon|

theorem C3_degraded_route_witness :
    1 ≤ pyInt ((2:ℚ) * 60) ∧
    generate_route qTestDist idShuffle id [] none 56 44 0 2 "walk" none none =
      { stops := [{ name := pyOrS none "Стартовая точка",
                    description := "Прогулка рядом с точкой старта.",
                    lat := 56, lon := 44, leg_min := 0,
                    stay_min := pyInt ((2:ℚ) * 60) }],
        summary := { transport := _norm_transport "walk", start_lat := 56,
                     start_lon := 44, start_label := pyOrS none "Старт",
                     total_km := 0, eta_min := pyInt ((2:ℚ) * 60) },
        source := "fallback", reason := some "No POI" } := by
  have h1 : 1 ≤ pyInt ((2:ℚ) * 60) := by norm_num [pyInt]
  exact ⟨h1, C3_degraded_route qTestDist idShuffle id none 56 44 0 2 "walk"
    none none h1⟩

/-- A POI with out-of-range latitude. -/
def poi200 : Poi := { name := some "Точка вне диапазона", lat := some 200, lon := some 0 }

/-- C9: the code under `src/` never consults `is_valid_lat_lon` on the
route-generation path: a selected POI with out-of-range latitude flows
straight into the distance computation and a route containing it is
produced, for every distance function — no rejection happens.  The
validator itself correctly classifies the coordinates as invalid. -/
theorem C9_out_of_range_not_rejected :
    is_valid_lat_lon 200 0 = false ∧
    ∀ hav : ℚ → ℚ → ℚ → ℚ → ℚ,
      ((_build_stops_and_summary hav "Старт" 0 0 "walk" [poi200] 60).stops.map
        (fun s => (s.lat, s.lon))) = [(200, 0)] := by
  constructor
  · decide
  · intro hav
    simp [_build_stops_and_summary, poi200, nn_order_singleton, buildLoop,
      byXYlookup, allocateStays, show List.range 1 = [0] from rfl]

/-- C10 counterexample: the claim says any transport string mentioning
"scooter" is normalized to "bike", but `_norm_transport "scooter"` matches
no keyword (only the Russian "самокат" maps to bike) and falls through to
"walk". -/
theorem C10_scooter_counterexample :
    _norm_transport "scooter" ≠ "bike" ∧ _norm_transport "scooter" = "walk" := by
  constructor
  · decide
  · decide

/-- C10 amended: every route produced by `generate_route` carries a summary
transport in {walk, bike, car, transit} — in particular never "scooter" —
because the input mode is first passed through `_norm_transport`.  The
Russian word "самокат" (scooter) normalizes to "bike", while the English
string "scooter" matches no keyword and normalizes to "walk". -/
theorem C10_transport_invariant (hav : ℚ → ℚ → ℚ → ℚ → ℚ)
    (shuffle : ℕ → List Poi → List Poi) (enrich : List StopOut → List StopOut)
    (pois : List Poi) (ionet : Option (List IStep)) (lat lon : ℚ)
    (interests_hash : ℕ) (time_hours : ℚ) (transport : String)
    (location : Option String) (dseed : Option ℕ) :
    ((generate_route hav shuffle enrich pois ionet lat lon interests_hash
        time_hours transport location dseed).summary.transport = "walk" ∨
     (generate_route hav shuffle enrich pois ionet lat lon interests_hash
        time_hours transport location dseed).summary.transport = "bike" ∨
     (generate_route hav shuffle enrich pois ionet lat lon interests_hash
        time_hours transport location dseed).summary.transport = "car" ∨
     (generate_route hav shuffle enrich pois ionet lat lon interests_hash
        time_hours transport location dseed).summary.transport = "transit") ∧
    (generate_route hav shuffle enrich pois ionet lat lon interests_hash
        time_hours transport location dseed).summary.transport ≠ "scooter" ∧
    _norm_transport "самокат" = "bike" ∧
    _norm_transport "scooter" = "walk" := by
  have h := generate_route_transport hav shuffle enrich pois ionet lat lon
    interests_hash time_hours transport location dseed
  have hm := norm_transport_mem transport
  rw [h]
  refine ⟨hm, ?_, by decide, by decide⟩
  rcases hm with h1 | h1 | h1 | h1 <;> rw [h1] <;> decide

/-! ## `route_formatter.py`: the result normalizer `_ensure_stops_and_summary`

The route dictionaries are modelled by records over a linear ordered field
`K` with a floor (instantiated at `ℚ` for executable checks and at `ℝ` for
theorems about the actual haversine); a `none` field models an absent key
(the source only distinguishes `None` from absent where both behave the
same: `leg_min in (None, 0)` and `p.get("stay_min") is None`). -/

/-- A step of the flat input shape (`route["steps"]`). -/
structure NStep (K : Type) where
  lat : K
  lon : K
  name : Option String := none
  title : Option String := none
  label : Option String := none
  description : Option String := none
  addr : Option String := none
  address : Option String := none
  stay_min : Option ℤ := none
deriving DecidableEq

/-- A stop of the stops+summary shape. -/
structure NStop (K : Type) where
  name : Option String := none
  description : Option String := none
  lat : K
  lon : K
  leg_min : Option ℤ := none
  stay_min : Option ℤ := none
deriving DecidableEq

/-- The summary dictionary. -/
structure NSummary (K : Type) where
  transport : Option String := none
  start_lat : Option K := none
  start_lon : Option K := none
  start_label : Option String := none
  total_km : Option K := none
  eta_min : Option ℤ := none
  start_time : Option String := none
  end_time : Option String := none
deriving DecidableEq

/-- A route dictionary in either upstream shape. -/
structure NRoute (K : Type) where
  stops : Option (List (NStop K)) := none
  summary : Option (NSummary K) := none
  steps : Option (List (NStep K)) := none
  transport : Option String := none
  start_lat : Option K := none
  start_lon : Option K := none
  start_label : Option String := none
  duration_min : Option ℤ := none
  distance_km : Option K := none
  start_time : Option String := none
  end_time : Option String := none
deriving DecidableEq

/-- `_SPEEDS_KMH` from `route_formatter.py` (`.get(transport, 4.5)`). -/
def speedsFmt {K : Type} [LinearOrderedField K] (t : String) : K :=
  if t = "walk" then 9/2
  else if t = "bike" then 15
  else if t = "scooter" then 15
  else if t = "car" then 30
  else if t = "transit" then 20
  else 9/2

/-- `int(sum(p["leg_min"] + p.get("stay_min", 0) for p in stops))`. -/
def etaSum {K : Type} (stops : List (NStop K)) : ℤ :=
  (stops.map (fun p => p.leg_min.getD 0 + p.stay_min.getD 0)).sum

/-- The per-stop loop of the stops+summary branch
(`route_formatter.py` lines 117-130): recompute `leg_min` when it is absent,
null or 0, default `stay_min` to 10 when absent or null, accumulate the
haversine total. -/
def ensureLoopA {K : Type} [LinearOrderedField K] [FloorRing K]
    (hav : K → K → K → K → K) (speed : K) :
    K × K → List (NStop K) → List (NStop K) × K
  | _, [] => ([], 0)
  | prev, p :: rest =>
      let dist := hav prev.1 prev.2 p.lat p.lon
      let leg : ℤ :=
        match p.leg_min with
        | none => pyRound (dist / speed * 60)
        | some l => if l = 0 then pyRound (dist / speed * 60) else l
      let stay : ℤ := p.stay_min.getD 10
      let r := ensureLoopA hav speed (p.lat, p.lon) rest
      ({ p with leg_min := some leg, stay_min := some stay } :: r.1, dist + r.2)

/-- The per-step loop of the flat branch (`route_formatter.py` lines
153-174): resolve names, compute `leg_min` from the previous position (0 for
the first step when no start is known), default `stay_min` to 10. -/
def ensureLoopB {K : Type} [LinearOrderedField K] [FloorRing K]
    (hav : K → K → K → K → K) (speed : K) :
    Option (K × K) → ℕ → List (NStep K) → List (NStop K) × K
  | _, _, [] => ([], 0)
  | prev, i, p :: rest =>
      let name := pyOrS p.name (pyOrS p.title (pyOrS p.label ("Точка " ++ toString i)))
      let desc := pyOrS p.description (pyOrS p.addr (pyOrS p.address ""))
      let dist : K :=
        match prev with
        | some pv => hav pv.1 pv.2 p.lat p.lon
        | none => 0
      let leg : ℤ :=
        match prev with
        | some pv => pyRound (hav pv.1 pv.2 p.lat p.lon / speed * 60)
        | none => 0
      let r := ensureLoopB hav speed (some (p.lat, p.lon)) (i + 1) rest
      ({ name := some name, description := some desc, lat := p.lat, lon := p.lon,
         leg_min := some leg, stay_min := some (p.stay_min.getD 10) } :: r.1,
       dist + r.2)

/-- The stops+summary branch body, for a non-empty stop list with head
`st0`: returns the updated stop list and summary. -/
def ensureA {K : Type} [LinearOrderedField K] [FloorRing K]
    (hav : K → K → K → K → K) (stops : List (NStop K)) (st0 : NStop K)
    (s : NSummary K) : List (NStop K) × NSummary K :=
  let transport := s.transport.getD "walk"
  let speed : K := speedsFmt transport
  let slat := s.start_lat.getD st0.lat
  let slon := s.start_lon.getD st0.lon
  let slabel := s.start_label.getD "Старт"
  let r := ensureLoopA hav speed (slat, slon) stops
  let tk : K :=
    match s.total_km with
    | some v => if v = 0 then r.2 else v
    | none => r.2
  let eta : Option ℤ :=
    match s.eta_min with
    | some e => if e = 0 then some (etaSum r.1) else some e
    | none => some (etaSum r.1)
  (r.1,
   { s with
      start_lat := some slat
      start_lon := some slon
      start_label := some slabel
      total_km := some (round1 tk)
      eta_min := eta })

/-- The flat-steps branch of `_ensure_stops_and_summary`
(`route_formatter.py` lines 137-192). -/
def ensureB {K : Type} [LinearOrderedField K] [FloorRing K]
    (hav : K → K → K → K → K) (route : NRoute K) : NRoute K :=
  let steps := route.steps.getD []
  let transport := route.transport.getD "walk"
  let speed : K := speedsFmt transport
  let slat : Option K :=
    match steps with
    | [] => route.start_lat
    | p :: _ => some (route.start_lat.getD p.lat)
  let slon : Option K :=
    match steps with
    | [] => route.start_lon
    | p :: _ => some (route.start_lon.getD p.lon)
  let prev : Option (K × K) :=
    match slat, slon with
    | some a, some b => some (a, b)
    | _, _ => none
  let r := ensureLoopB hav speed prev 1 steps
  let etaRaw : ℤ :=
    match route.duration_min with
    | some v => if v = 0 then etaSum r.1 else v
    | none => etaSum r.1
  let tk : K :=
    match route.distance_km with
    | some v => if v = 0 then r.2 else v
    | none => r.2
  { stops := some r.1,
    summary := some
      { transport := some transport, start_lat := slat, start_lon := slon,
        start_label := some (pyOrS route.start_label "Старт"),
        total_km := some (round1 tk), eta_min := some (max 1 etaRaw),
        start_time := route.start_time, end_time := route.end_time } }

/-- `_ensure_stops_and_summary` from `route_formatter.py`, parameterized by
the distance function `hav` standing for the module's float
`_haversine_km`. -/
def ensure {K : Type} [LinearOrderedField K] [FloorRing K]
    (hav : K → K → K → K → K) (route : NRoute K) : NRoute K :=
  match route.stops, route.summary with
  | some stops, some s =>
      match stops with
      | [] => route
      | st0 :: _ =>
          let r := ensureA hav stops st0 s
          { route with stops := some r.1, summary := some r.2 }
  | _, _ => ensureB hav route

/-! ## Normalizer lemmas -/

theorem pyRound_intCast {K : Type} [LinearOrderedField K] [FloorRing K]
    (n : ℤ) : pyRound ((n : K)) = n := by
  unfold pyRound
  rw [Int.floor_intCast, sub_self, if_pos (by norm_num)]

theorem round1_round1 {K : Type} [LinearOrderedField K] [FloorRing K]
    (q : K) : round1 (round1 q) = round1 q := by
  unfold round1
  rw [div_mul_cancel₀ _ (by norm_num : (10:K) ≠ 0), pyRound_intCast]

theorem ensureLoopA_len {K : Type} [LinearOrderedField K] [FloorRing K]
    (hav : K → K → K → K → K) (speed : K) :
    ∀ (l : List (NStop K)) (pv : K × K),
      ((ensureLoopA hav speed pv l).1).length = l.length := by
  intro l
  induction l with
  | nil => intro pv; rfl
  | cons p rest ih =>
    intro pv
    simp only [ensureLoopA, List.length_cons]
    rw [ih]

theorem ensureLoopB_len {K : Type} [LinearOrderedField K] [FloorRing K]
    (hav : K → K → K → K → K) (speed : K) :
    ∀ (l : List (NStep K)) (pv : Option (K × K)) (i : ℕ),
      ((ensureLoopB hav speed pv i l).1).length = l.length := by
  intro l
  induction l with
  | nil => intro pv i; rfl
  | cons p rest ih =>
    intro pv i
    simp only [ensureLoopB, List.length_cons]
    rw [ih]

theorem ensureLoopA_idem {K : Type} [LinearOrderedField K] [FloorRing K]
    (hav : K → K → K → K → K) (speed : K) :
    ∀ (l : List (NStop K)) (pv : K × K),
      ensureLoopA hav speed pv ((ensureLoopA hav speed pv l).1)
        = ensureLoopA hav speed pv l := by
  intro l
  induction l with
  | nil => intro pv; rfl
  | cons p rest ih =>
    intro pv
    cases hpl : p.leg_min with
    | none =>
      simp only [ensureLoopA, hpl]
      rw [ih]
      simp [ite_self]
    | some l0 =>
      by_cases hl : l0 = 0
      · subst hl
        simp only [ensureLoopA, hpl]
        rw [ih]
        simp [ite_self]
      · simp only [ensureLoopA, hpl, if_neg hl]
        rw [ih]
        simp [if_neg hl]

theorem ensureLoopA_of_B {K : Type} [LinearOrderedField K] [FloorRing K]
    (hav : K → K → K → K → K) (speed : K) :
    ∀ (steps : List (NStep K)) (pv : K × K) (i : ℕ),
      ensureLoopA hav speed pv ((ensureLoopB hav speed (some pv) i steps).1)
        = ((ensureLoopB hav speed (some pv) i steps).1,
           (ensureLoopB hav speed (some pv) i steps).2) := by
  intro steps
  induction steps with
  | nil => intro pv i; rfl
  | cons p rest ih =>
    intro pv i
    simp only [ensureLoopB, ensureLoopA]
    rw [ih]
    simp [ite_self]

theorem round1_stable {K : Type} [LinearOrderedField K] [FloorRing K]
    (C tk : K) (h : round1 tk = 0 → tk = C) :
    round1 (if round1 tk = 0 then C else round1 tk) = round1 tk := by
  by_cases hz : round1 tk = 0
  · rw [if_pos hz, ← h hz]
  · rw [if_neg hz, round1_round1]

theorem ensureA_idem {K : Type} [LinearOrderedField K] [FloorRing K]
    (hav : K → K → K → K → K) (stops : List (NStop K)) (st0 st0' : NStop K)
    (s : NSummary K)
    (hcond : ∀ v, s.total_km = some v → v ≠ 0 → round1 v ≠ 0) :
    ensureA hav (ensureA hav stops st0 s).1 st0' (ensureA hav stops st0 s).2
      = ensureA hav stops st0 s := by
  have hloop := ensureLoopA_idem hav (speedsFmt (s.transport.getD "walk"))
    stops (s.start_lat.getD st0.lat, s.start_lon.getD st0.lon)
  simp only [ensureA, Option.getD_some]
  rw [hloop]
  simp only [Prod.mk.injEq, NSummary.mk.injEq, true_and, and_true]
  constructor
  · congr 1
    apply round1_stable
    intro hz
    rcases htk : s.total_km with _ | v
    · simp [htk]
    · simp only [htk] at hz ⊢
      by_cases hv : v = 0
      · simp [hv]
      · rw [if_neg hv] at hz ⊢
        exact absurd hz (hcond v htk hv)
  · rcases heta : s.eta_min with _ | e
    · simp [heta, ite_self]
    · by_cases he : e = 0
      · subst he
        simp [heta, ite_self]
      · simp [heta, if_neg he]

theorem ensureA_of_B_general {K : Type} [LinearOrderedField K] [FloorRing K]
    (hav : K → K → K → K → K) (T L : String) (a b : K)
    (steps : List (NStep K)) (q : NStop K) (tkB : K) (E : ℤ)
    (st en : Option String)
    (htk : round1 tkB = 0 →
      tkB = (ensureLoopB hav (speedsFmt T) (some (a, b)) 1 steps).2) :
    ensureA hav (ensureLoopB hav (speedsFmt T) (some (a, b)) 1 steps).1 q
      { transport := some T, start_lat := some a, start_lon := some b,
        start_label := some L, total_km := some (round1 tkB),
        eta_min := some (max 1 E), start_time := st, end_time := en }
      = ((ensureLoopB hav (speedsFmt T) (some (a, b)) 1 steps).1,
         { transport := some T, start_lat := some a, start_lon := some b,
           start_label := some L, total_km := some (round1 tkB),
           eta_min := some (max 1 E), start_time := st, end_time := en }) := by
  have hmax : ¬ (max 1 E = 0) := by
    have : (1:ℤ) ≤ max 1 E := le_max_left _ _
    omega
  simp only [ensureA, Option.getD_some]
  rw [ensureLoopA_of_B]
  simp only [Prod.mk.injEq, NSummary.mk.injEq, true_and, and_true, if_neg hmax]
  congr 1
  exact round1_stable _ _ htk

theorem ensure_of_empty_stops {K : Type} [LinearOrderedField K] [FloorRing K]
    (hav : K → K → K → K → K) (r : NRoute K) (s : NSummary K)
    (h1 : r.stops = some []) (h2 : r.summary = some s) : ensure hav r = r := by
  simp only [ensure, h1, h2]

theorem ensure_B_shape {K : Type} [LinearOrderedField K] [FloorRing K]
    (hav : K → K → K → K → K) (route : NRoute K)
    (h : route.stops = none ∨ route.summary = none) :
    ensure hav route = ensureB hav route := by
  rcases h with h | h
  · simp only [ensure, h]
  · rcases hst : route.stops with _ | stops
    · simp only [ensure, hst]
    · simp only [ensure, hst, h]

theorem ensureB_idem {K : Type} [LinearOrderedField K] [FloorRing K]
    (hav : K → K → K → K → K) (route : NRoute K)
    (hB : ∀ v, route.distance_km = some v → v ≠ 0 → round1 v ≠ 0) :
    ensure hav (ensureB hav route) = ensureB hav route := by
  rcases hsteps : route.steps.getD [] with _ | ⟨p, ps⟩
  · exact ensure_of_empty_stops hav _ _
      (by simp only [ensureB, hsteps, ensureLoopB]) rfl
  · have hqr : ∃ q rest,
        (ensureLoopB hav (speedsFmt (route.transport.getD "walk"))
          (some (route.start_lat.getD p.lat, route.start_lon.getD p.lon)) 1
          (p :: ps)).1 = q :: rest := by
      simp only [ensureLoopB]
      exact ⟨_, _, rfl⟩
    obtain ⟨q, rest, hqr⟩ := hqr
    have hE : ensureB hav route =
        { stops := some ((ensureLoopB hav (speedsFmt (route.transport.getD "walk"))
            (some (route.start_lat.getD p.lat, route.start_lon.getD p.lon)) 1
            (p :: ps)).1),
          summary := some
            { transport := some (route.transport.getD "walk"),
              start_lat := some (route.start_lat.getD p.lat),
              start_lon := some (route.start_lon.getD p.lon),
              start_label := some (pyOrS route.start_label "Старт"),
              total_km := some (round1 (match route.distance_km with
                | some v => if v = 0 then
                    (ensureLoopB hav (speedsFmt (route.transport.getD "walk"))
                      (some (route.start_lat.getD p.lat, route.start_lon.getD p.lon))
                      1 (p :: ps)).2
                  else v
                | none =>
                    (ensureLoopB hav (speedsFmt (route.transport.getD "walk"))
                      (some (route.start_lat.getD p.lat, route.start_lon.getD p.lon))
                      1 (p :: ps)).2)),
              eta_min := some (max 1 (match route.duration_min with
                | some v => if v = 0 then
                    etaSum (ensureLoopB hav (speedsFmt (route.transport.getD "walk"))
                      (some (route.start_lat.getD p.lat, route.start_lon.getD p.lon))
                      1 (p :: ps)).1
                  else v
                | none =>
                    etaSum (ensureLoopB hav (speedsFmt (route.transport.getD "walk"))
                      (some (route.start_lat.getD p.lat, route.start_lon.getD p.lon))
                      1 (p :: ps)).1)),
              start_time := route.start_time, end_time := route.end_time } } := by
      simp only [ensureB, hsteps]
    have htk : round1 (match route.distance_km with
        | some v => if v = 0 then
            (ensureLoopB hav (speedsFmt (route.transport.getD "walk"))
              (some (route.start_lat.getD p.lat, route.start_lon.getD p.lon))
              1 (p :: ps)).2
          else v
        | none =>
            (ensureLoopB hav (speedsFmt (route.transport.getD "walk"))
              (some (route.start_lat.getD p.lat, route.start_lon.getD p.lon))
              1 (p :: ps)).2) = 0 →
        (match route.distance_km with
        | some v => if v = 0 then
            (ensureLoopB hav (speedsFmt (route.transport.getD "walk"))
              (some (route.start_lat.getD p.lat, route.start_lon.getD p.lon))
              1 (p :: ps)).2
          else v
        | none =>
            (ensureLoopB hav (speedsFmt (route.transport.getD "walk"))
              (some (route.start_lat.getD p.lat, route.start_lon.getD p.lon))
              1 (p :: ps)).2)
          = (ensureLoopB hav (speedsFmt (route.transport.getD "walk"))
              (some (route.start_lat.getD p.lat, route.start_lon.getD p.lon))
              1 (p :: ps)).2 := by
      intro hz
      rcases hdk : route.distance_km with _ | v
      · simp only [hdk] at hz ⊢
      · simp only [hdk] at hz ⊢
        by_cases hv : v = 0
        · simp [hv]
        · rw [if_neg hv] at hz ⊢
          exact absurd hz (hB v hdk hv)
    rw [hE, hqr]
    simp only [ensure]
    rw [← hqr]
    rw [ensureA_of_B_general hav (route.transport.getD "walk")
      (pyOrS route.start_label "Старт") (route.start_lat.getD p.lat)
      (route.start_lon.getD p.lon) (p :: ps) q _ _ route.start_time
      route.end_time htk]

/-- C8 amended: the normalizer is idempotent on every input whose stored
nonzero `total_km` (stops+summary shape) or `distance_km` (flat shape) does
not round to 0.0 at one decimal place: `ensure (ensure x) = ensure x`.
(The counterexample shows idempotence fails without this proviso: a stored
positive distance below 0.05 km is rounded to the falsy 0.0 by the first
pass, which makes the second pass recompute the total from coordinates.) -/
theorem C8_normalize_idempotent_amended {K : Type} [LinearOrderedField K]
    [FloorRing K] (hav : K → K → K → K → K) (route : NRoute K)
    (hA : ∀ s v, route.summary = some s → s.total_km = some v → v ≠ 0 →
      round1 v ≠ 0)
    (hB : ∀ v, route.distance_km = some v → v ≠ 0 → round1 v ≠ 0) :
    ensure hav (ensure hav route) = ensure hav route := by
  rcases hst : route.stops with _ | stops
  · rw [ensure_B_shape hav route (Or.inl hst)]
    exact ensureB_idem hav route hB
  · rcases hsm : route.summary with _ | s
    · rw [ensure_B_shape hav route (Or.inr hsm)]
      exact ensureB_idem hav route hB
    · rcases stops with _ | ⟨st0, rest⟩
      · have h1 : ensure hav route = route :=
          ensure_of_empty_stops hav route s hst hsm
        rw [h1, h1]
      · have h1 : ensure hav route =
            { route with
                stops := some (ensureA hav (st0 :: rest) st0 s).1
                summary := some (ensureA hav (st0 :: rest) st0 s).2 } := by
          simp only [ensure, hst, hsm]
        have hlen : (ensureA hav (st0 :: rest) st0 s).1.length
            = (st0 :: rest).length := by
          simp only [ensureA]
          exact ensureLoopA_len hav _ _ _
        obtain ⟨q, rest2, hq⟩ : ∃ q rest2,
            (ensureA hav (st0 :: rest) st0 s).1 = q :: rest2 := by
          cases hc : (ensureA hav (st0 :: rest) st0 s).1 with
          | nil =>
            rw [hc] at hlen
            simp at hlen
          | cons a l => exact ⟨a, l, rfl⟩
        have hc := ensureA_idem hav (st0 :: rest) st0 q s (fun v => hA s v hsm)
        rw [h1, hq]
        simp only [ensure]
        rw [← hq, hc]

/-! ## The real haversine and rounding bounds -/

/-- `_haversine_km` exactly as written in the source (spherical radius
6371.0, `math.radians x = x * π / 180`), over the reals. -/
noncomputable def haversineR (aLat aLon bLat bLon : ℝ) : ℝ :=
  let la1 := aLat * (Real.pi / 180)
  let lo1 := aLon * (Real.pi / 180)
  let la2 := bLat * (Real.pi / 180)
  let lo2 := bLon * (Real.pi / 180)
  let dlat := la2 - la1
  let dlon := lo2 - lo1
  let h := Real.sin (dlat / 2) ^ 2 +
    Real.cos la1 * Real.cos la2 * Real.sin (dlon / 2) ^ 2
  2 * 6371 * Real.arcsin (Real.sqrt h)

theorem pyRound_ge_floor {K : Type} [LinearOrderedField K] [FloorRing K]
    (q : K) : ⌊q⌋ ≤ pyRound q := by
  unfold pyRound
  split_ifs <;> omega

theorem round1_pos {K : Type} [LinearOrderedField K] [FloorRing K]
    (q : K) (h : 1 ≤ q) : 0 < round1 q := by
  unfold round1
  have h10 : (10:K) ≤ q * 10 := by nlinarith
  have hf : (10:ℤ) ≤ ⌊q * 10⌋ := Int.le_floor.mpr (by push_cast; exact h10)
  have hp : (10:ℤ) ≤ pyRound (q * 10) := le_trans hf (pyRound_ge_floor _)
  have hc : (10:K) ≤ (pyRound (q * 10) : K) := by exact_mod_cast hp
  have : (0:K) < (pyRound (q * 10) : K) := lt_of_lt_of_le (by norm_num) hc
  positivity

/-- One degree of latitude from the origin:
`_haversine_km((0,0), (1,0)) = 6371·π/180` (≈ 111.19 km). -/
theorem haversineR_eval : haversineR 0 0 1 0 = 6371 * Real.pi / 180 := by
  unfold haversineR
  simp only [zero_mul, one_mul, sub_zero, sub_self, zero_div, Real.sin_zero,
    Real.cos_zero]
  rw [show Real.pi / 180 / 2 = Real.pi / 360 by ring]
  have hpi := Real.pi_pos
  have hnn : 0 ≤ Real.sin (Real.pi / 360) :=
    Real.sin_nonneg_of_nonneg_of_le_pi (by linarith) (by linarith)
  rw [show Real.sin (Real.pi / 360) ^ 2 + Real.cos (Real.pi / 180) * 0 ^ 2
      = Real.sin (Real.pi / 360) ^ 2 by ring]
  rw [Real.sqrt_sq hnn]
  rw [Real.arcsin_sin (by linarith) (by linarith)]
  ring

theorem round1_one_twentyfifth : round1 ((1:ℝ)/25) = 0 := by
  unfold round1 pyRound
  rw [show ((1:ℝ)/25) * 10 = 2/5 by norm_num]
  have hf : ⌊(2/5 : ℝ)⌋ = 0 := by
    apply Int.floor_eq_zero_iff.mpr
    rw [Set.mem_Ico]
    norm_num
  rw [hf]
  norm_num

/-- The stops+summary input on which normalization is not idempotent: a
stored positive `total_km = 0.04` (truthy, but rounding to the falsy
`0.0`) together with a stop one degree of latitude away from the start. -/
noncomputable def rCex : NRoute ℝ :=
  { stops := some [{ lat := 1, lon := 0, leg_min := some 7, stay_min := some 53 }],
    summary := some
      { transport := some "walk", start_lat := some 0,
        start_lon := some 0, start_label := some "Старт",
        total_km := some (1/25), eta_min := some 60 } }

theorem ensure_rCex : ensure haversineR rCex =
    { stops := some [{ lat := 1, lon := 0, leg_min := some 7, stay_min := some 53 }],
      summary := some
        { transport := some "walk", start_lat := some 0,
          start_lon := some 0, start_label := some "Старт",
          total_km := some 0, eta_min := some 60 } } := by
  simp only [ensure, rCex]
  simp only [ensureA, ensureLoopA, Option.getD_some, etaSum]
  norm_num [round1_one_twentyfifth]

theorem ensure_ensure_rCex_total :
    (ensure haversineR (ensure haversineR rCex)).summary.map (fun t => t.total_km)
      = some (some (round1 (haversineR 0 0 1 0))) := by
  rw [ensure_rCex]
  simp only [ensure, ensureA, ensureLoopA, Option.getD_some, etaSum]
  norm_num

/-- C8 counterexample: normalization is not idempotent.  On `rCex` — a
stops+summary route whose stored `total_km = 0.04` is truthy but rounds to
`0.0` — the first pass stores `total_km = 0.0`, and the second pass, seeing
the falsy `0.0`, recomputes the total from the coordinates (one degree of
latitude ≈ 111.2 km), so `normalize (normalize x) ≠ normalize x`. -/
theorem C8_normalize_idempotence_counterexample :
    ensure haversineR (ensure haversineR rCex) ≠ ensure haversineR rCex := by
  intro hEq
  have hL := ensure_ensure_rCex_total
  rw [hEq, ensure_rCex] at hL
  simp only [Option.map_some'] at hL
  have h0 : (0:ℝ) = round1 (haversineR 0 0 1 0) := by
    have := Option.some.inj (Option.some.inj hL)
    exact this
  have hpos : 0 < round1 (haversineR 0 0 1 0) := by
    rw [haversineR_eval]
    refine round1_pos _ ?_
    nlinarith [Real.pi_gt_three]
  rw [← h0] at hpos
  exact lt_irrefl _ hpos

/-- A concrete flat-shape route used by the idempotence witness. -/
def rW : NRoute ℚ :=
  { steps := some [{ lat := 1, lon := 2 }], distance_km := some 3 }

theorem C8_normalize_idempotent_amended_witness :
    (∀ s v, rW.summary = some s → s.total_km = some v → v ≠ 0 → round1 v ≠ 0) ∧
    (∀ v : ℚ, rW.distance_km = some v → v ≠ 0 → round1 v ≠ 0) ∧
    ensure qTestDist (ensure qTestDist rW) = ensure qTestDist rW := by
  have hA : ∀ s v, rW.summary = some s → s.total_km = some v → v ≠ 0 →
      round1 v ≠ 0 := by
    intro s v h
    simp [rW] at h
  have hB : ∀ v : ℚ, rW.distance_km = some v → v ≠ 0 → round1 v ≠ 0 := by
    intro v hv hv0
    have h3 : v = 3 := by
      simp [rW] at hv
      exact hv.symm
    subst h3
    norm_num [round1, pyRound]
  exact ⟨hA, hB, C8_normalize_idempotent_amended qTestDist rW hA hB⟩

/-! ## Claim C2: the sum-of-minutes invariant -/

/-- Forgetting the description of a stop: the enrichment contract says
`enrich_stops` only rewrites `description` fields. -/
def stripDesc (s : StopOut) : StopOut := { s with description := "" }

theorem enrich_preserves_eta_sum (enrich : List StopOut → List StopOut)
    (hEn : ∀ ss, (enrich ss).map stripDesc = ss.map stripDesc)
    (ss : List StopOut) :
    ((enrich ss).map (fun s => s.leg_min + s.stay_min)).sum
      = (ss.map (fun s => s.leg_min + s.stay_min)).sum := by
  have hfun : (fun s : StopOut => s.leg_min + s.stay_min)
      = (fun s : StopOut => s.leg_min + s.stay_min) ∘ stripDesc := rfl
  rw [hfun, ← List.map_map, hEn, List.map_map]

theorem generate_route_eta (hav : ℚ → ℚ → ℚ → ℚ → ℚ)
    (shuffle : ℕ → List Poi → List Poi) (enrich : List StopOut → List StopOut)
    (pois : List Poi) (ionet : Option (List IStep)) (lat lon : ℚ)
    (interests_hash : ℕ) (time_hours : ℚ) (transport : String)
    (location : Option String) (dseed : Option ℕ)
    (hpois : pois ≠ [])
    (hEn : ∀ ss, (enrich ss).map stripDesc = ss.map stripDesc) :
    (generate_route hav shuffle enrich pois ionet lat lon interests_hash
        time_hours transport location dseed).summary.eta_min =
      ((generate_route hav shuffle enrich pois ionet lat lon interests_hash
        time_hours transport location dseed).stops.map
          (fun s => s.leg_min + s.stay_min)).sum := by
  simp only [generate_route, if_neg hpois]
  split
  · rw [enrich_preserves_eta_sum enrich hEn]
    exact build_eta_eq _ _ _ _ _ _ _
  · rw [enrich_preserves_eta_sum enrich hEn]
    exact build_eta_eq _ _ _ _ _ _ _

theorem ensure_eta_A {K : Type} [LinearOrderedField K] [FloorRing K]
    (hav : K → K → K → K → K) (route : NRoute K) (st0 : NStop K)
    (rest : List (NStop K)) (s : NSummary K)
    (hst : route.stops = some (st0 :: rest)) (hsm : route.summary = some s)
    (heta : s.eta_min = none ∨ s.eta_min = some 0) :
    (ensure hav route).summary.map (fun t => t.eta_min)
      = some (some (etaSum ((ensure hav route).stops.getD []))) := by
  simp only [ensure, hst, hsm, ensureA, Option.map_some', Option.getD_some]
  rcases heta with h | h <;> simp [h]

theorem ensure_eta_B {K : Type} [LinearOrderedField K] [FloorRing K]
    (hav : K → K → K → K → K) (route : NRoute K)
    (hshape : route.stops = none ∨ route.summary = none)
    (hdur : route.duration_min = none ∨ route.duration_min = some 0)
    (hsum1 : 1 ≤ etaSum ((ensure hav route).stops.getD [])) :
    (ensure hav route).summary.map (fun t => t.eta_min)
      = some (some (etaSum ((ensure hav route).stops.getD []))) := by
  rw [ensure_B_shape hav route hshape] at hsum1 ⊢
  simp only [ensureB, Option.map_some', Option.getD_some] at hsum1 ⊢
  rcases hdur with h | h <;>
    simp only [h, eq_self_iff_true, ite_true] <;>
    rw [max_eq_right hsum1]

/-- C2 amended: the sum-of-minutes invariant.  (1) Every route assembled by
`_build_stops_and_summary` — hence both the external-optimizer path and the
local fallback path — satisfies `eta_min = Σ (leg_min + stay_min)` exactly.
(2) The same holds through `generate_route` for every non-degraded request,
given the enrichment contract (descriptions only).  For the normalizer the
invariant holds conditionally: (3) in the stops+summary shape it holds
whenever the incoming summary has no nonzero `eta_min` (the code keeps a
truthy stored `eta_min` untouched, see the counterexample); (4) in the flat
shape it holds whenever there is no nonzero `duration_min` and the computed
sum is at least 1 (the code clamps `eta_min` to `max(1, ·)`). -/
theorem C2_eta_invariant_amended :
    (∀ (hav : ℚ → ℚ → ℚ → ℚ → ℚ) (sl : String) (slat slon : ℚ) (tr : String)
        (picked : List Poi) (target : ℤ),
      (_build_stops_and_summary hav sl slat slon tr picked target).summary.eta_min =
        ((_build_stops_and_summary hav sl slat slon tr picked target).stops.map
          (fun s => s.leg_min + s.stay_min)).sum) ∧
    (∀ (hav : ℚ → ℚ → ℚ → ℚ → ℚ) (shuffle : ℕ → List Poi → List Poi)
        (enrich : List StopOut → List StopOut) (pois : List Poi)
        (ionet : Option (List IStep)) (lat lon : ℚ) (interests_hash : ℕ)
        (time_hours : ℚ) (transport : String) (location : Option String)
        (dseed : Option ℕ),
      pois ≠ [] →
      (∀ ss, (enrich ss).map stripDesc = ss.map stripDesc) →
      (generate_route hav shuffle enrich pois ionet lat lon interests_hash
          time_hours transport location dseed).summary.eta_min =
        ((generate_route hav shuffle enrich pois ionet lat lon interests_hash
          time_hours transport location dseed).stops.map
            (fun s => s.leg_min + s.stay_min)).sum) ∧
    (∀ (K : Type) (i1 : LinearOrderedField K) (i2 : FloorRing K)
        (hav : K → K → K → K → K) (route : NRoute K) (st0 : NStop K)
        (rest : List (NStop K)) (s : NSummary K),
      route.stops = some (st0 :: rest) → route.summary = some s →
      (s.eta_min = none ∨ s.eta_min = some 0) →
      (ensure hav route).summary.map (fun t => t.eta_min)
        = some (some (etaSum ((ensure hav route).stops.getD [])))) ∧
    (∀ (K : Type) (i1 : LinearOrderedField K) (i2 : FloorRing K)
        (hav : K → K → K → K → K) (route : NRoute K),
      (route.stops = none ∨ route.summary = none) →
      (route.duration_min = none ∨ route.duration_min = some 0) →
      1 ≤ etaSum ((ensure hav route).stops.getD []) →
      (ensure hav route).summary.map (fun t => t.eta_min)
        = some (some (etaSum ((ensure hav route).stops.getD [])))) := by
  refine ⟨?_, ?_, ?_, ?_⟩
  · intro hav sl slat slon tr picked target
    exact build_eta_eq hav sl slat slon tr picked target
  · intro hav shuffle enrich pois ionet lat lon ih th tr loc dseed hpois hEn
    exact generate_route_eta hav shuffle enrich pois ionet lat lon ih th tr
      loc dseed hpois hEn
  · intro K i1 i2 hav route st0 rest s hst hsm heta
    exact ensure_eta_A hav route st0 rest s hst hsm heta
  · intro K i1 i2 hav route hshape hdur hsum1
    exact ensure_eta_B hav route hshape hdur hsum1

/-- A concrete stops+summary route without a stored `eta_min`, used by the
C2 witness. -/
def rEtaW : NRoute ℚ :=
  { stops := some [{ lat := 0, lon := 0, leg_min := some 5, stay_min := some 5 }],
    summary := some
      { transport := some "walk", start_lat := some 0, start_lon := some 0,
        start_label := some "Старт", total_km := some 1, eta_min := none } }

theorem C2_eta_invariant_amended_witness :
    (([genPoi] : List Poi) ≠ [] ∧
      (∀ ss, ((id : List StopOut → List StopOut) ss).map stripDesc = ss.map stripDesc) ∧
      (generate_route qTestDist idShuffle id [genPoi] none 0 0 0 2 "walk"
          none none).summary.eta_min =
        ((generate_route qTestDist idShuffle id [genPoi] none 0 0 0 2 "walk"
          none none).stops.map (fun s => s.leg_min + s.stay_min)).sum) ∧
    (rEtaW.stops = some [{ lat := 0, lon := 0, leg_min := some 5, stay_min := some 5 }] ∧
      (ensure qTestDist rEtaW).summary.map (fun t => t.eta_min)
        = some (some (etaSum ((ensure qTestDist rEtaW).stops.getD [])))) := by
  constructor
  · exact ⟨by decide, fun ss => rfl,
      C2_eta_invariant_amended.2.1 qTestDist idShuffle id [genPoi] none 0 0 0 2
        "walk" none none (by decide) (fun ss => rfl)⟩
  · refine ⟨rfl, ?_⟩
    exact C2_eta_invariant_amended.2.2.1 ℚ _ _ qTestDist rEtaW
      { lat := 0, lon := 0, leg_min := some 5, stay_min := some 5 } []
      { transport := some "walk", start_lat := some 0, start_lon := some 0,
        start_label := some "Старт", total_km := some 1, eta_min := none }
      rfl rfl (Or.inl rfl)

/-- The stops+summary input showing the C2 claim fails for the normalizer:
a stored truthy `eta_min = 999` is kept even though the stops sum to 10. -/
noncomputable def rEtaCex : NRoute ℝ :=
  { stops := some [{ lat := 0, lon := 0, leg_min := some 5, stay_min := some 5 }],
    summary := some
      { transport := some "walk", start_lat := some 0, start_lon := some 0,
        start_label := some "Старт", total_km := some 1, eta_min := some 999 } }

/-- C2 counterexample: the normalizer (with the source's haversine) keeps
the stored `eta_min = 999` on a route whose stops sum to `5 + 5 = 10`, so
`eta_min == sum(leg_min + stay_min)` fails for a normalizer-produced route
that is not the degraded single-stop fallback. -/
theorem C2_eta_counterexample :
    (ensure haversineR rEtaCex).summary.map (fun t => t.eta_min)
      = some (some 999) ∧
    etaSum ((ensure haversineR rEtaCex).stops.getD []) = 10 ∧
    (999 : ℤ) ≠ 10 := by
  refine ⟨?_, ?_, by decide⟩ <;>
  · simp only [ensure, rEtaCex, ensureA, ensureLoopA, Option.map_some',
      Option.getD_some, etaSum]
    norm_num
